import Mathlib

/-!
# Verification of the rsw build-dispatch core (`src/core/cli.rs`)

Shallow embedding of the build-dispatch and watch-trigger engine of the
`rsw` command line tool.  The Rust source under scrutiny is
`src/core/cli.rs`; the central functions are `Cli::wp_build` (the build
dispatcher), `Cli::parse_toml` (the configuration pass that writes the
crates info file), `Cli::rsw_build` and `Cli::rsw_watch`.

Modelling conventions:
* Rust `Option<T>` fields become `Option T`; a call to `.unwrap()` on
  `None` (a panic) is modelled by the whole function returning `none`.
* The external collaborators that are not part of the source file
  (`Build`, `Link`, `Watch`, the process spawner) are modelled from the
  spec as trace events; the exit status of the external build tool is an
  oracle `String → Nat` (crate name to exit status), whose result the
  dispatcher discards exactly as `Build::new(..).init()`'s result is
  discarded in the source.
* `std::process::exit(1)` is modelled by the `exited` flag of the
  dispatcher output together with a `noCrates` trace event; code after
  the exit is unreachable and is not executed in the model.
* The `HashMap` `crates_map` is modelled as an association list kept in
  first-insertion order; `HashMap::insert` overwrites the value of an
  existing key.
-/

set_option autoImplicit false

namespace Rsw

/-- The `[crate.build]` / `[crate.watch]` tables: only the `run` flag is
read by `wp_build` (`i.build.as_ref().unwrap().run.unwrap()`). -/
structure ToolOpt where
  run : Option Bool
  deriving Repr, DecidableEq

/-- One `[[crates]]` entry of `rsw.toml`, restricted to the fields that
`cli.rs` reads.  All fields except `name` are optional in the Rust
config struct and are `unwrap`ped at their use sites. -/
structure CrateConfig where
  name : String
  root : Option String
  out_dir : Option String
  link : Option Bool
  build : Option ToolOpt
  watch : Option ToolOpt
  deriving Repr, DecidableEq

/-- The whole-project configuration: global `cli` (package manager
identifier, optional in the Rust struct, `unwrap`ped by `wp_build`) and
the ordered crate list. -/
structure RswConfig where
  cli : Option String
  crates : List CrateConfig
  deriving Repr, DecidableEq

/-- `PathBuf::push` / `join` for Unix-style string paths: an absolute
component replaces the base, otherwise the component is appended with a
separator (none added after a trailing separator or an empty base). -/
def pathJoin (base c : String) : String :=
  if c.data.head? = some '/' then c
  else if base = "" then c
  else if base.data.getLast? = some '/' then base ++ c
  else base ++ "/" ++ c

/-- One step of lexical path cleaning: drop empty and `.` components,
let `..` pop a previous real component (at the root of an absolute path
a `..` disappears; leading `..`s of a relative path are kept).  The
accumulator holds the processed components in reverse. -/
def cleanStep (isAbs : Bool) (acc : List String) (c : String) : List String :=
  if c = ".." then
    match acc with
    | [] => if isAbs then [] else [".."]
    | a :: rest => if a = ".." then c :: acc else rest
  else c :: acc

/-- Split a character list at `/` separators (the semantics of
`String.splitOn "/"`, written as a computable recursion on the
characters). -/
def splitSlash : List Char → List Char → List String
  | [], cur => [String.mk cur.reverse]
  | c :: rest, cur =>
    if c = '/' then String.mk cur.reverse :: splitSlash rest []
    else splitSlash rest (c :: cur)

/-- Lexical path normalization as performed by the `path_clean` crate
(`PathClean::clean`, used by `Cli::parse_toml`): collapse repeated
separators, remove `.` components, resolve `..` against preceding
components, and return `.` for an emptied relative path. -/
def clean (path : String) : String :=
  let isAbs := path.data.head? = some '/'
  let comps := (splitSlash path.data []).filter fun c => c ≠ "" ∧ c ≠ "."
  let cleaned := (comps.foldl (cleanStep (decide isAbs)) []).reverse
  if isAbs then "/" ++ String.intercalate "/" cleaned
  else if cleaned = [] then "." else String.intercalate "/" cleaned

/-- `HashMap::insert` on the association-list model: overwrite the value
of an existing key in place, else append the new entry. -/
def mapInsert : List (String × String) → String → String → List (String × String)
  | [], k, v => [(k, v)]
  | (k', v') :: rest, k, v =>
    if k' = k then (k, v) :: rest else (k', v') :: mapInsert rest k v

/-- Observable actions of one dispatcher / watch run, in program order.
`build` records one invocation of the external build tool (`Build::new
(..).init()`) together with the exit status the tool returned; `regInsert`
records an insertion into the link registry `crates_map`; `noCrates` is
the `RswInfo::LoadCrate` report printed just before `process::exit(1)`;
`link` is the single batched `Link::npm_link` invocation; `watchStart`
marks the start of the watch engine (`Watch::new(..).init()`). -/
inductive Event where
  | build (name : String) (status : Nat)
  | regInsert (name : String) (path : String)
  | noCrates
  | link (cli : String) (paths : List String)
  | watchStart
  deriving Repr, DecidableEq

/-- The mutable state of `wp_build`'s crate loop: the trace of events so
far plus the three locals `crates_map`, `has_crates`, `is_exit`. -/
structure WpState where
  events : List Event
  cratesMap : List (String × String)
  has_crates : Bool
  is_exit : Bool
  deriving Repr, DecidableEq

/-- `rsw_type == "build" && i.build.as_ref().unwrap().run.unwrap()` with
Rust's short-circuit `&&`: the `unwrap`s run only when the mode matches
(`none` = panic). -/
def runFlag (cond : Bool) (t : Option ToolOpt) : Option Bool :=
  if cond then t.bind ToolOpt.run else some false

/-- The `cli == "npm" && i.link.unwrap()` block of `wp_build`: when the
package manager is npm, `link` is unwrapped; a linking crate has its
`root` and `out_dir` unwrapped, its output path `root/name/out_dir`
computed (no normalization), and `(name, path)` inserted into
`crates_map` with `has_crates` set. -/
def linkStep (cli : String) (i : CrateConfig) (st : WpState) : Option WpState :=
  if cli = "npm" then
    match i.link with
    | none => none
    | some false => some st
    | some true =>
      match i.root, i.out_dir with
      | some root, some od =>
        let path := pathJoin (pathJoin root i.name) od
        some { st with
                has_crates := true
                cratesMap := mapInsert st.cratesMap i.name path
                events := st.events ++ [Event.regInsert i.name path] }
      | _, _ => none
  else some st

/-- One iteration of `wp_build`'s `for i in &config.crates` loop: compute
`run_build` and `run_watch` (panicking `unwrap`s included), and when the
crate is actionable clear `is_exit`, run the npm-link registration block
and invoke the external build (whose exit status `status i.name` is
recorded in the trace and otherwise discarded, as in the source). -/
def wpStep (cli ty : String) (status : String → Nat) (i : CrateConfig)
    (st : WpState) : Option WpState := do
  let run_build ← runFlag (decide (ty = "build")) i.build
  let run_watch ← runFlag (decide (ty = "watch")) i.watch
  if run_build || run_watch then do
    let st2 ← linkStep cli i { st with is_exit := false }
    some { st2 with events := st2.events ++ [Event.build i.name (status i.name)] }
  else
    some st

/-- The crate loop of `wp_build`, crates processed in configuration
order. -/
def wpLoop (cli ty : String) (status : String → Nat) :
    List CrateConfig → WpState → Option WpState
  | [], st => some st
  | i :: rest, st => do
    let st' ← wpStep cli ty status i st
    wpLoop cli ty status rest st'

/-- Result of one `wp_build` dispatch pass: the event trace, the final
link registry `crates_map`, and whether the pass called
`process::exit(1)` (the "no crates" path). -/
structure WpOutput where
  events : List Event
  cratesMap : List (String × String)
  exited : Bool
  deriving Repr, DecidableEq

/-- `Cli::wp_build(config, rsw_type, is_link)`.  Unwraps `config.cli`,
runs the crate loop, then either reports `LoadCrate` and exits with
status 1 (when no crate was actionable) or, when the package manager is
npm and some crate registered for linking, issues the single batched
`Link::npm_link` invocation over all registry values.  `is_link` is only
forwarded to the external build action and does not influence dispatch.
`status` is the external build tool's exit-status oracle. -/
def wp_build (status : String → Nat) (config : RswConfig) (rsw_type : String)
    (_is_link : Bool) : Option WpOutput := do
  let cli ← config.cli
  let st ← wpLoop cli rsw_type status config.crates ⟨[], [], false, true⟩
  if st.is_exit then
    some ⟨st.events ++ [Event.noCrates], st.cratesMap, true⟩
  else if cli = "npm" ∧ st.has_crates then
    some ⟨st.events ++ [Event.link cli (st.cratesMap.map Prod.snd)],
          st.cratesMap, false⟩
  else
    some ⟨st.events, st.cratesMap, false⟩

/-- The crate-lines loop of `Cli::parse_toml`: for every crate — with no
regard to `build.run` or `watch.run` — unwrap `root` and `out_dir`
(panic on absence) and format `name :~> clean(root/name/out_dir)`. -/
def crateLines : List CrateConfig → Option (List String)
  | [] => some []
  | i :: rest =>
    match i.root, i.out_dir with
    | some root, some od =>
      match crateLines rest with
      | some ls =>
        some ((i.name ++ " :~> " ++ clean (pathJoin (pathJoin root i.name) od)) :: ls)
      | none => none
    | _, _ => none

/-- `Cli::parse_toml`: parse the configuration (given here as input; the
file parser is an external collaborator), compute the info line of every
crate, write them via `init_rsw_crates` (modelled as returning the
lines), and return the configuration. -/
def parse_toml (config : RswConfig) : Option (List String × RswConfig) :=
  match crateLines config.crates with
  | some ls => some (ls, config)
  | none => none

/-- `Cli::rsw_build`: one `build`-mode dispatch over the parsed
configuration. -/
def rsw_build (status : String → Nat) (config : RswConfig) : Option WpOutput := do
  let (_, cfg) ← parse_toml config
  wp_build status cfg "build" false

/-- `Cli::rsw_watch(callback)`: parse the configuration, run the full
initial `watch`-mode dispatch pass, then unwrap the callback and start
the watch engine.  Modelled from the spec: `Watch::new(config,
callback.unwrap()).init()` is outside `src/`; per the spec it installs
the change monitors and runs until interrupted, which the trace records
as the single `watchStart` event.  If the dispatch pass exits the
process (no actionable crates), the watch engine is never started. -/
def rsw_watch (status : String → Nat) (callback : Option Unit)
    (config : RswConfig) : Option (List Event) := do
  let (_, cfg) ← parse_toml config
  let out ← wp_build status cfg "watch" true
  if out.exited then
    some out.events
  else do
    let _ ← callback
    some (out.events ++ [Event.watchStart])

/-! ## Spec-side characterizations of the dispatcher

The following definitions re-express the loop of `wp_build` as list
functions over the crate list, so that the claims can be stated and
proved against them.  They are connected to the embedded code by the
`_eq` lemmas below. -/

/-- A crate registers for linking: the package manager is npm and the
crate's `link` flag is set. -/
def linkFlag (cli : String) (i : CrateConfig) : Bool :=
  decide (cli = "npm") && i.link.getD false

/-- A crate is actionable for the given mode: `build.run` in `build`
mode, `watch.run` in `watch` mode. -/
def actionable (ty : String) (i : CrateConfig) : Bool :=
  (runFlag (decide (ty = "build")) i.build).getD false ||
    (runFlag (decide (ty = "watch")) i.watch).getD false

/-- A crate is actionable and registers for linking. -/
def linkEligible (cli ty : String) (i : CrateConfig) : Bool :=
  actionable ty i && linkFlag cli i

/-- The output path `root/name/out_dir` computed by `wp_build` for a
linking crate (no normalization is applied there). -/
def cratePath (i : CrateConfig) : String :=
  pathJoin (pathJoin (i.root.getD "") i.name) (i.out_dir.getD "")

/-- The trace events one crate contributes to a dispatch pass. -/
def crateEvents (cli ty : String) (status : String → Nat) (i : CrateConfig) :
    List Event :=
  if actionable ty i then
    (if linkFlag cli i then [Event.regInsert i.name (cratePath i)] else []) ++
      [Event.build i.name (status i.name)]
  else []

/-- The trace of the whole crate loop, crates in configuration order. -/
def tracesOf (cli ty : String) (status : String → Nat) :
    List CrateConfig → List Event
  | [] => []
  | i :: rest => crateEvents cli ty status i ++ tracesOf cli ty status rest

/-- The link registry accumulated by the crate loop, starting from `m`. -/
def registryFrom (cli ty : String) (m : List (String × String)) :
    List CrateConfig → List (String × String)
  | [] => m
  | i :: rest =>
    registryFrom cli ty
      (if linkEligible cli ty i then mapInsert m i.name (cratePath i) else m) rest

/-- The npm-link block of `wp_build` does not panic on this crate:
either the package manager is not npm, or `link` is present, and a
linking crate also has `root` and `out_dir` present. -/
def linkStepOk (cli : String) (i : CrateConfig) : Bool :=
  if cli = "npm" then
    match i.link with
    | none => false
    | some false => true
    | some true => i.root.isSome && i.out_dir.isSome
  else true

/-- The loop body of `wp_build` does not panic on this crate: the
mode's run flag is readable (`build`/`build.run` in `build` mode,
`watch`/`watch.run` in `watch` mode), and an actionable crate passes the
npm-link block. -/
def crateOk (cli ty : String) (i : CrateConfig) : Bool :=
  match runFlag (decide (ty = "build")) i.build,
      runFlag (decide (ty = "watch")) i.watch with
  | some rb, some rw => if rb || rw then linkStepOk cli i else true
  | _, _ => false

/-- `wp_build` does not panic on this configuration: `cli` is present
and every crate of the list passes the loop body. -/
def wpOk (config : RswConfig) (ty : String) : Bool :=
  match config.cli with
  | none => false
  | some cli => config.crates.all (crateOk cli ty)

/-- Denotation of the npm-link block on the loop state (the non-panic
case of `linkStep`). -/
def linkDenote (cli : String) (i : CrateConfig) (st : WpState) : WpState :=
  if linkFlag cli i then
    { st with
        has_crates := true
        cratesMap := mapInsert st.cratesMap i.name (cratePath i)
        events := st.events ++ [Event.regInsert i.name (cratePath i)] }
  else st

/-- Denotation of one loop iteration on the loop state (the non-panic
case of `wpStep`). -/
def stepDenote (cli ty : String) (status : String → Nat) (i : CrateConfig)
    (st : WpState) : WpState :=
  if actionable ty i then
    let st2 := linkDenote cli i { st with is_exit := false }
    { st2 with events := st2.events ++ [Event.build i.name (status i.name)] }
  else st

/-- Names of the external build invocations recorded in a trace, in
order. -/
def buildNames (evts : List Event) : List String :=
  evts.filterMap fun e =>
    match e with
    | Event.build n _ => some n
    | _ => none

/-- Argument lists of the external link invocations recorded in a
trace, in order. -/
def linkArgs (evts : List Event) : List (List String) :=
  evts.filterMap fun e =>
    match e with
    | Event.link _ ps => some ps
    | _ => none

/-- Keys of the association-list registry. -/
def mapKeys (m : List (String × String)) : List String := m.map Prod.fst

/-- Spec-side predicate of property 1: the crate's `build.run` flag is
present and set. -/
def hasBuildRun (i : CrateConfig) : Bool :=
  decide (i.build.bind ToolOpt.run = some true)

/-- The registry insertion for crate `n` (with path `p`) appears in the
trace strictly before an external build invocation for `n`. -/
def insertBeforeBuild (evts : List Event) (n p : String) : Prop :=
  ∃ pre mid post s, evts =
    pre ++ [Event.regInsert n p] ++ mid ++ [Event.build n s] ++ post

/-- The single-crate example configuration of the spec's end-to-end
property: `name = "app"`, `root = "./crates"`, `out_dir = "pkg"`,
`build.run = true`, `link = true`, `cli = "npm"`.  The `watch` table is
left absent: `build` mode never reads it (short-circuit of `&&`). -/
def exampleCrate : CrateConfig :=
  { name := "app", root := some "./crates", out_dir := some "pkg",
    link := some true, build := some ⟨some true⟩, watch := none }

/-- The whole example configuration of the spec's end-to-end property. -/
def exampleConfig : RswConfig :=
  { cli := some "npm", crates := [exampleCrate] }

/-- Crate `B` of the spec's property 3: actionable for `build` but with
`link = false`. -/
def crateB : CrateConfig :=
  { name := "libB", root := some "./crates", out_dir := some "pkg",
    link := some false, build := some ⟨some true⟩, watch := none }

/-- Two-crate configuration: `app` links, `libB` builds but does not
link. -/
def configAB : RswConfig :=
  { cli := some "npm", crates := [exampleCrate, crateB] }

/-- A configuration with no actionable crate for any mode. -/
def idleCrate : CrateConfig :=
  { name := "idle", root := none, out_dir := none,
    link := some false, build := some ⟨some false⟩, watch := some ⟨some false⟩ }

/-- Configuration whose only crate is never actionable and lacks `root`
and `out_dir`. -/
def idleConfig : RswConfig :=
  { cli := some "npm", crates := [idleCrate] }

/-- An actionable crate with `link = false` and neither `root` nor
`out_dir`. -/
def noRootCrate : CrateConfig :=
  { name := "app", root := none, out_dir := none,
    link := some false, build := some ⟨some true⟩, watch := none }

/-- Configuration whose only crate is actionable with `link = false` and
no `root`/`out_dir`. -/
def noRootConfig : RswConfig :=
  { cli := some "npm", crates := [noRootCrate] }

/-- A crate actionable for `watch` mode only; `build` is absent, which
`watch` mode never reads. -/
def watchCrate : CrateConfig :=
  { name := "app", root := some "./crates", out_dir := some "pkg",
    link := some true, build := none, watch := some ⟨some true⟩ }

/-- Configuration for the watch-mode examples. -/
def watchConfig : RswConfig :=
  { cli := some "npm", crates := [watchCrate] }

theorem linkStep_eq (cli : String) (i : CrateConfig) (st : WpState) :
    linkStep cli i st =
      if linkStepOk cli i then some (linkDenote cli i st) else none := by
  by_cases h : cli = "npm"
  · rcases hl : i.link with _ | b
    · simp [linkStep, linkStepOk, linkDenote, linkFlag, h, hl]
    · cases b
      · simp [linkStep, linkStepOk, linkDenote, linkFlag, h, hl]
      · rcases hr : i.root with _ | r <;> rcases ho : i.out_dir with _ | o <;>
          simp [linkStep, linkStepOk, linkDenote, linkFlag, cratePath, h, hl, hr, ho]
  · simp [linkStep, linkStepOk, linkDenote, linkFlag, h]

theorem wpStep_eq (cli ty : String) (status : String → Nat) (i : CrateConfig)
    (st : WpState) :
    wpStep cli ty status i st =
      if crateOk cli ty i then some (stepDenote cli ty status i st) else none := by
  rcases hb : runFlag (decide (ty = "build")) i.build with _ | rb <;>
    rcases hw : runFlag (decide (ty = "watch")) i.watch with _ | rw <;>
      simp only [wpStep, crateOk, hb, hw, Option.bind_eq_bind, Option.none_bind,
        Option.some_bind]
  · rfl
  · rfl
  · rfl
  · have ha : actionable ty i = (rb || rw) := by simp [actionable, hb, hw]
    cases hrw : rb || rw with
    | false => simp [stepDenote, ha, hrw]
    | true =>
      rw [linkStep_eq]
      cases hok : linkStepOk cli i with
      | false => simp [hrw, hok]
      | true => simp [stepDenote, ha, hrw, hok]

theorem wpLoop_eq (cli ty : String) (status : String → Nat)
    (crates : List CrateConfig) : ∀ st : WpState,
    wpLoop cli ty status crates st =
      if crates.all (crateOk cli ty) then
        some (crates.foldl (fun s i => stepDenote cli ty status i s) st)
      else none := by
  induction crates with
  | nil => intro st; simp [wpLoop]
  | cons i rest ih =>
    intro st
    show (wpStep cli ty status i st).bind (wpLoop cli ty status rest) = _
    rw [wpStep_eq]
    by_cases hok : crateOk cli ty i = true
    · simp [hok, ih, List.all_cons]
    · simp [hok, List.all_cons]

theorem stepDenote_events (cli ty : String) (status : String → Nat)
    (i : CrateConfig) (st : WpState) :
    (stepDenote cli ty status i st).events = st.events ++ crateEvents cli ty status i := by
  by_cases ha : actionable ty i = true <;>
    by_cases hl : linkFlag cli i = true <;>
      simp [stepDenote, linkDenote, crateEvents, ha, hl]

theorem stepDenote_map (cli ty : String) (status : String → Nat)
    (i : CrateConfig) (st : WpState) :
    (stepDenote cli ty status i st).cratesMap =
      if linkEligible cli ty i then mapInsert st.cratesMap i.name (cratePath i)
      else st.cratesMap := by
  by_cases ha : actionable ty i = true <;>
    by_cases hl : linkFlag cli i = true <;>
      simp [stepDenote, linkDenote, linkEligible, ha, hl]

theorem stepDenote_has (cli ty : String) (status : String → Nat)
    (i : CrateConfig) (st : WpState) :
    (stepDenote cli ty status i st).has_crates =
      (st.has_crates || linkEligible cli ty i) := by
  by_cases ha : actionable ty i = true <;>
    by_cases hl : linkFlag cli i = true <;>
      simp [stepDenote, linkDenote, linkEligible, ha, hl]

theorem stepDenote_isExit (cli ty : String) (status : String → Nat)
    (i : CrateConfig) (st : WpState) :
    (stepDenote cli ty status i st).is_exit = (st.is_exit && !actionable ty i) := by
  by_cases ha : actionable ty i = true <;>
    by_cases hl : linkFlag cli i = true <;>
      simp [stepDenote, linkDenote, ha, hl]

theorem loopDenote_events (cli ty : String) (status : String → Nat)
    (crates : List CrateConfig) : ∀ st : WpState,
    (crates.foldl (fun s i => stepDenote cli ty status i s) st).events =
      st.events ++ tracesOf cli ty status crates := by
  induction crates with
  | nil => intro st; simp [tracesOf]
  | cons i rest ih =>
    intro st
    simp [tracesOf, List.foldl_cons, ih, stepDenote_events]

theorem loopDenote_map (cli ty : String) (status : String → Nat)
    (crates : List CrateConfig) : ∀ st : WpState,
    (crates.foldl (fun s i => stepDenote cli ty status i s) st).cratesMap =
      registryFrom cli ty st.cratesMap crates := by
  induction crates with
  | nil => intro st; simp [registryFrom]
  | cons i rest ih =>
    intro st
    simp only [List.foldl_cons, registryFrom, ih, stepDenote_map]

theorem loopDenote_has (cli ty : String) (status : String → Nat)
    (crates : List CrateConfig) : ∀ st : WpState,
    (crates.foldl (fun s i => stepDenote cli ty status i s) st).has_crates =
      (st.has_crates || crates.any (linkEligible cli ty)) := by
  induction crates with
  | nil => intro st; simp
  | cons i rest ih =>
    intro st
    simp [List.foldl_cons, ih, stepDenote_has, List.any_cons, Bool.or_assoc]

theorem loopDenote_isExit (cli ty : String) (status : String → Nat)
    (crates : List CrateConfig) : ∀ st : WpState,
    (crates.foldl (fun s i => stepDenote cli ty status i s) st).is_exit =
      (st.is_exit && !crates.any (actionable ty)) := by
  induction crates with
  | nil => intro st; simp
  | cons i rest ih =>
    intro st
    simp [List.foldl_cons, ih, stepDenote_isExit, List.any_cons, Bool.and_assoc]

/-- Full characterization of a successful `wp_build` pass: the crate
list passes the panic checks, the registry is `registryFrom`, the exit
flag mirrors "no actionable crate", and the trace is the loop trace
followed by either the `noCrates` report or (when npm linking applies)
the single batched link invocation. -/
theorem wp_build_some (status : String → Nat) (config : RswConfig)
    (ty : String) (il : Bool) (cli : String) (out : WpOutput)
    (hcli : config.cli = some cli)
    (h : wp_build status config ty il = some out) :
    config.crates.all (crateOk cli ty) = true
    ∧ out.cratesMap = registryFrom cli ty [] config.crates
    ∧ out.exited = !config.crates.any (actionable ty)
    ∧ (out.exited = true →
        out.events = tracesOf cli ty status config.crates ++ [Event.noCrates])
    ∧ (out.exited = false →
        if cli = "npm" ∧ config.crates.any (linkEligible cli ty) = true then
          out.events = tracesOf cli ty status config.crates ++
            [Event.link cli ((registryFrom cli ty [] config.crates).map Prod.snd)]
        else out.events = tracesOf cli ty status config.crates) := by
  rw [wp_build, hcli] at h
  simp only [Option.bind_eq_bind, Option.some_bind] at h
  rw [wpLoop_eq] at h
  by_cases hall : config.crates.all (crateOk cli ty) = true
  · rw [if_pos hall] at h
    simp only [Option.some_bind] at h
    set st := config.crates.foldl
      (fun s i => stepDenote cli ty status i s) (⟨[], [], false, true⟩ : WpState) with hst
    have hev : st.events = tracesOf cli ty status config.crates := by
      rw [hst, loopDenote_events]; simp
    have hmap : st.cratesMap = registryFrom cli ty [] config.crates := by
      rw [hst, loopDenote_map]
    have hhas : st.has_crates = config.crates.any (linkEligible cli ty) := by
      rw [hst, loopDenote_has]; simp
    have hex : st.is_exit = !config.crates.any (actionable ty) := by
      rw [hst, loopDenote_isExit]; simp
    by_cases hexit : st.is_exit = true
    · rw [if_pos hexit] at h
      cases h
      refine ⟨hall, hmap, by rw [← hex, hexit], fun _ => by rw [hev],
        fun hc => by simp at hc⟩
    · rw [if_neg hexit] at h
      have hexf : st.is_exit = false := by
        cases hxx : st.is_exit
        · rfl
        · exact absurd hxx hexit
      by_cases hnpm : cli = "npm" ∧ st.has_crates = true
      · rw [if_pos (by exact ⟨hnpm.1, by rw [hnpm.2]⟩)] at h
        cases h
        refine ⟨hall, hmap, by rw [← hex, hexf], by intro hc; simp at hc, ?_⟩
        intro _
        rw [if_pos ⟨hnpm.1, by rw [← hhas, hnpm.2]⟩, hev, hmap]
      · rw [if_neg (by
          intro hc
          exact hnpm ⟨hc.1, by
            have := hc.2
            simpa using this⟩)] at h
        cases h
        refine ⟨hall, hmap, by rw [← hex, hexf], by intro hc; simp at hc, ?_⟩
        intro _
        rw [if_neg (by
          intro hc
          exact hnpm ⟨hc.1, by rw [hhas, hc.2]⟩), hev]
  · rw [if_neg hall] at h
    simp at h

/-- `wp_build` returns a value (rather than panicking) exactly when the
configuration passes `wpOk`. -/
theorem wp_build_isSome (status : String → Nat) (config : RswConfig)
    (ty : String) (il : Bool) :
    (wp_build status config ty il).isSome = wpOk config ty := by
  rcases hcli : config.cli with _ | cli
  · simp [wp_build, wpOk, hcli]
  · rw [wp_build, hcli]
    simp only [Option.bind_eq_bind, Option.some_bind, wpOk, hcli]
    rw [wpLoop_eq]
    by_cases hall : config.crates.all (crateOk cli ty) = true
    · rw [if_pos hall, hall]
      simp only [Option.some_bind]
      split
      · rfl
      · split <;> rfl
    · rw [if_neg hall]
      simp only [Option.none_bind, Option.isSome_none]
      simp only [Bool.not_eq_true] at hall
      rw [hall]

theorem buildNames_append (a b : List Event) :
    buildNames (a ++ b) = buildNames a ++ buildNames b := by
  simp [buildNames, List.filterMap_append]

theorem linkArgs_append (a b : List Event) :
    linkArgs (a ++ b) = linkArgs a ++ linkArgs b := by
  simp [linkArgs, List.filterMap_append]

theorem buildNames_crateEvents (cli ty : String) (status : String → Nat)
    (i : CrateConfig) :
    buildNames (crateEvents cli ty status i) =
      if actionable ty i then [i.name] else [] := by
  by_cases ha : actionable ty i = true <;>
    by_cases hl : linkFlag cli i = true <;>
      simp [crateEvents, buildNames, ha, hl]

theorem buildNames_tracesOf (cli ty : String) (status : String → Nat) :
    ∀ crates : List CrateConfig,
    buildNames (tracesOf cli ty status crates) =
      (crates.filter (actionable ty)).map CrateConfig.name := by
  intro crates
  induction crates with
  | nil => simp [tracesOf, buildNames]
  | cons i rest ih =>
    rw [tracesOf, buildNames_append, ih, buildNames_crateEvents]
    by_cases ha : actionable ty i = true <;> simp [List.filter_cons, ha]

theorem linkArgs_tracesOf (cli ty : String) (status : String → Nat) :
    ∀ crates : List CrateConfig, linkArgs (tracesOf cli ty status crates) = [] := by
  intro crates
  induction crates with
  | nil => simp [tracesOf, linkArgs]
  | cons i rest ih =>
    rw [tracesOf, linkArgs_append, ih]
    by_cases ha : actionable ty i = true <;>
      by_cases hl : linkFlag cli i = true <;>
        simp [crateEvents, linkArgs, ha, hl]

theorem noCrates_not_mem_tracesOf (cli ty : String) (status : String → Nat) :
    ∀ crates : List CrateConfig, Event.noCrates ∉ tracesOf cli ty status crates := by
  intro crates
  induction crates with
  | nil => simp [tracesOf]
  | cons i rest ih =>
    rw [tracesOf]
    intro hmem
    rcases List.mem_append.mp hmem with hc | hc
    · by_cases ha : actionable ty i = true <;>
        by_cases hl : linkFlag cli i = true <;>
          simp [crateEvents, ha, hl] at hc
    · exact ih hc

theorem watchStart_not_mem_tracesOf (cli ty : String) (status : String → Nat) :
    ∀ crates : List CrateConfig, Event.watchStart ∉ tracesOf cli ty status crates := by
  intro crates
  induction crates with
  | nil => simp [tracesOf]
  | cons i rest ih =>
    rw [tracesOf]
    intro hmem
    rcases List.mem_append.mp hmem with hc | hc
    · by_cases ha : actionable ty i = true <;>
        by_cases hl : linkFlag cli i = true <;>
          simp [crateEvents, ha, hl] at hc
    · exact ih hc

theorem mapInsert_ne_nil (m : List (String × String)) (k v : String) :
    mapInsert m k v ≠ [] := by
  cases m with
  | nil => simp [mapInsert]
  | cons p rest =>
    rw [mapInsert]
    split <;> simp

theorem mapInsert_not_mem (k v : String) :
    ∀ m : List (String × String), k ∉ mapKeys m → mapInsert m k v = m ++ [(k, v)] := by
  intro m
  induction m with
  | nil => intro _; simp [mapInsert]
  | cons p rest ih =>
    intro hk
    rw [mapInsert]
    have hne : p.1 ≠ k := by
      intro hc
      exact hk (by simp [mapKeys, hc.symm])
    rw [if_neg hne]
    have : k ∉ mapKeys rest := by
      intro hc
      exact hk (by simp [mapKeys] at hc ⊢; exact Or.inr hc)
    rw [ih this]
    rfl

theorem registryFrom_nil_iff (cli ty : String) :
    ∀ (crates : List CrateConfig) (m : List (String × String)),
    (registryFrom cli ty m crates = [] ↔
      m = [] ∧ crates.filter (linkEligible cli ty) = []) := by
  intro crates
  induction crates with
  | nil => intro m; simp [registryFrom]
  | cons i rest ih =>
    intro m
    rw [registryFrom]
    by_cases he : linkEligible cli ty i = true
    · rw [if_pos he, ih]
      simp [List.filter_cons, he, mapInsert_ne_nil]
    · rw [if_neg he, ih]
      simp [List.filter_cons, he]

theorem registryFrom_eq_map (cli ty : String) :
    ∀ (crates : List CrateConfig) (m : List (String × String)),
    ((crates.filter (linkEligible cli ty)).map CrateConfig.name).Nodup →
    (∀ n ∈ (crates.filter (linkEligible cli ty)).map CrateConfig.name, n ∉ mapKeys m) →
    registryFrom cli ty m crates =
      m ++ (crates.filter (linkEligible cli ty)).map fun i => (i.name, cratePath i) := by
  intro crates
  induction crates with
  | nil => intro m _ _; simp [registryFrom]
  | cons i rest ih =>
    intro m hnd hdis
    rw [registryFrom]
    by_cases he : linkEligible cli ty i = true
    · rw [if_pos he]
      have hfc : (i :: rest).filter (linkEligible cli ty) =
          i :: rest.filter (linkEligible cli ty) := by
        simp [List.filter_cons, he]
      rw [hfc] at hnd hdis
      simp only [List.map_cons, List.nodup_cons] at hnd
      have hki : i.name ∉ mapKeys m := hdis i.name (by simp)
      rw [mapInsert_not_mem _ _ _ hki]
      have hdis' : ∀ n ∈ (rest.filter (linkEligible cli ty)).map CrateConfig.name,
          n ∉ mapKeys (m ++ [(i.name, cratePath i)]) := by
        intro n hn
        have h1 : n ∉ mapKeys m := hdis n (by simp [hn])
        have h2 : n ≠ i.name := by
          intro hc
          exact hnd.1 (hc ▸ hn)
        intro hc
        rcases (by simpa [mapKeys] using hc : n ∈ m.map Prod.fst ∨ n = i.name) with h | h
        · exact h1 (by simpa [mapKeys] using h)
        · exact h2 h
      rw [ih (m ++ [(i.name, cratePath i)]) hnd.2 hdis']
      simp [hfc]
    · rw [if_neg he]
      have hfc : (i :: rest).filter (linkEligible cli ty) =
          rest.filter (linkEligible cli ty) := by
        simp [List.filter_cons, he]
      rw [hfc] at hnd hdis
      rw [ih m hnd hdis, hfc]

/-- On a crate that passes the panic checks of `build` mode, being
actionable is exactly having `build.run = true`. -/
theorem actionable_build_eq (cli : String) (i : CrateConfig)
    (h : crateOk cli "build" i = true) : actionable "build" i = hasBuildRun i := by
  rcases hb : i.build.bind ToolOpt.run with _ | rb
  · rw [crateOk] at h
    simp [runFlag, hb] at h
  · cases rb <;> simp [actionable, hasBuildRun, runFlag, hb]

/-- Every successful `wp_build` trace is the loop trace followed by a
suffix containing no build invocation and no registry insertion. -/
theorem wp_build_events_shape (status : String → Nat) (config : RswConfig)
    (ty : String) (il : Bool) (cli : String) (out : WpOutput)
    (hcli : config.cli = some cli)
    (h : wp_build status config ty il = some out) :
    ∃ suffix, out.events = tracesOf cli ty status config.crates ++ suffix
      ∧ buildNames suffix = []
      ∧ (∀ n p : String, Event.regInsert n p ∉ suffix)
      ∧ Event.watchStart ∉ suffix := by
  obtain ⟨-, -, -, hex1, hex0⟩ := wp_build_some status config ty il cli out hcli h
  cases hx : out.exited with
  | true =>
    exact ⟨[Event.noCrates], hex1 hx, by simp [buildNames], by simp, by simp⟩
  | false =>
    have := hex0 hx
    by_cases hc : cli = "npm" ∧ config.crates.any (linkEligible cli ty) = true
    · rw [if_pos hc] at this
      exact ⟨_, this, by simp [buildNames], by simp, by simp⟩
    · rw [if_neg hc] at this
      exact ⟨[], by simpa using this, by simp [buildNames], by simp, by simp⟩

/-- In the loop trace, a link-eligible crate contributes its registry
insertion immediately followed by its build invocation. -/
theorem tracesOf_eligible_decomp (cli ty : String) (status : String → Nat)
    (i : CrateConfig) : ∀ crates : List CrateConfig, i ∈ crates →
    linkEligible cli ty i = true →
    ∃ pre post, tracesOf cli ty status crates =
      pre ++ [Event.regInsert i.name (cratePath i),
              Event.build i.name (status i.name)] ++ post := by
  intro crates
  induction crates with
  | nil => intro hmem; simp at hmem
  | cons j rest ih =>
    intro hmem he
    rcases List.mem_cons.mp hmem with hj | hj
    · subst hj
      have he' := he
      simp only [linkEligible, Bool.and_eq_true] at he'
      refine ⟨[], tracesOf cli ty status rest, ?_⟩
      rw [tracesOf, crateEvents, if_pos he'.1, if_pos he'.2]
      simp
    · obtain ⟨pre, post, hp⟩ := ih hj he
      refine ⟨crateEvents cli ty status j ++ pre, post, ?_⟩
      rw [tracesOf, hp]
      simp

/-! ## Claims -/

/-- C1: for every configuration whose crate list contains exactly K
crates with `build.run = true`, a dispatch in `build` mode invokes the
external build action exactly K times — once per such (actionable)
crate, each exactly once, in configuration order.  Stated as: the list
of build invocations of a completed `build` dispatch is exactly the
name list of the crates with `build.run = true`, in configuration
order (so its length is K). -/
theorem build_dispatch_invokes_each_actionable_once (status : String → Nat)
    (config : RswConfig) (il : Bool) (out : WpOutput)
    (h : wp_build status config "build" il = some out) :
    buildNames out.events =
      (config.crates.filter hasBuildRun).map CrateConfig.name
    ∧ (buildNames out.events).length =
      (config.crates.filter hasBuildRun).length := by
  rcases hcli : config.cli with _ | cli
  · rw [wp_build, hcli] at h
    simp [Option.bind_eq_bind] at h
  · obtain ⟨hall, -, -, -, -⟩ := wp_build_some status config "build" il cli out hcli h
    obtain ⟨suffix, hs, hbn, -, -⟩ :=
      wp_build_events_shape status config "build" il cli out hcli h
    have hfe : config.crates.filter (actionable "build") =
        config.crates.filter hasBuildRun :=
      List.filter_congr fun i hi =>
        actionable_build_eq cli i (List.all_eq_true.mp hall i hi)
    have hmain : buildNames out.events =
        (config.crates.filter hasBuildRun).map CrateConfig.name := by
      rw [hs, buildNames_append, hbn, List.append_nil, buildNames_tracesOf, hfe]
    exact ⟨hmain, by rw [hmain, List.length_map]⟩

theorem build_dispatch_invokes_each_actionable_once_witness :
    buildNames
        (WpOutput.events ⟨[Event.regInsert "app" "./crates/app/pkg",
          Event.build "app" 0, Event.build "libB" 0,
          Event.link "npm" ["./crates/app/pkg"]],
          [("app", "./crates/app/pkg")], false⟩) =
      (configAB.crates.filter hasBuildRun).map CrateConfig.name
    ∧ (buildNames
        (WpOutput.events ⟨[Event.regInsert "app" "./crates/app/pkg",
          Event.build "app" 0, Event.build "libB" 0,
          Event.link "npm" ["./crates/app/pkg"]],
          [("app", "./crates/app/pkg")], false⟩)).length =
      (configAB.crates.filter hasBuildRun).length :=
  build_dispatch_invokes_each_actionable_once (fun _ => 0) configAB false _
    (by decide)

/-- C2: if no crate is actionable for the requested mode, a completed
dispatch performs zero build invocations, reports the "no crates
selected" condition (`RswInfo::LoadCrate`), terminates the process with
exit status 1, and issues no link invocation. -/
theorem no_actionable_crates_exits (status : String → Nat)
    (config : RswConfig) (ty : String) (il : Bool) (out : WpOutput)
    (h : wp_build status config ty il = some out)
    (hk : config.crates.filter (actionable ty) = []) :
    buildNames out.events = []
    ∧ Event.noCrates ∈ out.events
    ∧ out.exited = true
    ∧ linkArgs out.events = [] := by
  rcases hcli : config.cli with _ | cli
  · rw [wp_build, hcli] at h
    simp [Option.bind_eq_bind] at h
  · obtain ⟨-, -, hexit, hex1, -⟩ := wp_build_some status config ty il cli out hcli h
    have hany : config.crates.any (actionable ty) = false := by
      cases hx : config.crates.any (actionable ty)
      · rfl
      · obtain ⟨i, hi, hp⟩ := List.any_eq_true.mp hx
        have := List.filter_eq_nil_iff.mp hk i hi
        exact absurd hp this
    have hext : out.exited = true := by rw [hexit, hany]; rfl
    have hev : out.events = tracesOf cli ty status config.crates ++ [Event.noCrates] :=
      hex1 hext
    refine ⟨?_, ?_, hext, ?_⟩
    · rw [hev, buildNames_append, buildNames_tracesOf, hk]
      simp [buildNames]
    · rw [hev]; simp
    · rw [hev, linkArgs_append, linkArgs_tracesOf]
      simp [linkArgs]

theorem no_actionable_crates_exits_witness :
    buildNames (WpOutput.events ⟨[Event.noCrates], [], true⟩) = []
    ∧ Event.noCrates ∈ WpOutput.events ⟨[Event.noCrates], [], true⟩
    ∧ WpOutput.exited ⟨[Event.noCrates], [], true⟩ = true
    ∧ linkArgs (WpOutput.events ⟨[Event.noCrates], [], true⟩) = [] :=
  no_actionable_crates_exits (fun _ => 0) idleConfig "build" false _
    (by decide) (by decide)

/-- C6: on the configuration `[{name:"app", root:"./crates",
out_dir:"pkg", build:{run:true}, link:true}]` with `cli = "npm"`, a
`build` dispatch performs exactly one build invocation (for `app`), the
resulting registry is `{"app" ↦ "./crates/app/pkg"}`, and exactly one
link invocation is issued, with argument list `["./crates/app/pkg"]`. -/
theorem example_end_to_end :
    (wp_build (fun _ => 0) exampleConfig "build" false).map
        (fun o => (buildNames o.events, o.cratesMap, linkArgs o.events))
      = some (["app"], [("app", "./crates/app/pkg")], [["./crates/app/pkg"]]) := by
  decide

/-- C3 counterexample: on the spec's own end-to-end example the stored
registry path is `./crates/app/pkg`, which is *not* lexically
normalized (its normal form is `crates/app/pkg`), and not absolute —
`wp_build` stores the raw join `root/name/out_dir` without applying
`clean`. -/
theorem registry_path_not_normalized :
    (wp_build (fun _ => 0) exampleConfig "build" false).map WpOutput.cratesMap
      = some [("app", "./crates/app/pkg")]
    ∧ clean "./crates/app/pkg" = "crates/app/pkg"
    ∧ ("./crates/app/pkg" : String) ≠ clean "./crates/app/pkg" := by
  refine ⟨by decide, by decide, by decide⟩

/-- C3 amended: after one completed dispatch pass, the link registry
contains exactly one entry `(name, path)` for each actionable crate
with `link = true` (under an npm package manager), in configuration
order, and no entry for any other crate; the stored path is the raw
join `root/name/out_dir` exactly as computed by `PathBuf::join` — not
lexically normalized and not made absolute. -/
theorem registry_entries_exact (status : String → Nat) (config : RswConfig)
    (ty : String) (il : Bool) (cli : String) (out : WpOutput)
    (hcli : config.cli = some cli)
    (hnd : (config.crates.map CrateConfig.name).Nodup)
    (h : wp_build status config ty il = some out) :
    out.cratesMap = (config.crates.filter (linkEligible cli ty)).map
      fun i => (i.name, cratePath i) := by
  obtain ⟨-, hmap, -, -, -⟩ := wp_build_some status config ty il cli out hcli h
  have hsub : List.Sublist
      ((config.crates.filter (linkEligible cli ty)).map CrateConfig.name)
      (config.crates.map CrateConfig.name) :=
    (List.filter_sublist _).map CrateConfig.name
  rw [hmap, registryFrom_eq_map cli ty config.crates [] (hnd.sublist hsub)
    (by intro n _ hc; simp [mapKeys] at hc)]
  rfl

theorem registry_entries_exact_witness :
    WpOutput.cratesMap ⟨[Event.regInsert "app" "./crates/app/pkg",
        Event.build "app" 0, Event.build "libB" 0,
        Event.link "npm" ["./crates/app/pkg"]],
        [("app", "./crates/app/pkg")], false⟩ =
      (configAB.crates.filter (linkEligible "npm" "build")).map
        fun i => (i.name, cratePath i) :=
  registry_entries_exact (fun _ => 0) configAB "build" false "npm" _
    (by decide) (by decide) (by decide)

/-- C4: whenever a completed dispatch pass produced a non-empty link
registry, the trace holds exactly one link invocation, and it lists all
collected crate paths (the registry's value list); when the registry is
empty, the trace holds no link invocation at all. -/
theorem link_invocation_batched (status : String → Nat) (config : RswConfig)
    (ty : String) (il : Bool) (out : WpOutput)
    (h : wp_build status config ty il = some out) :
    (out.cratesMap ≠ [] → linkArgs out.events = [out.cratesMap.map Prod.snd])
    ∧ (out.cratesMap = [] → linkArgs out.events = []) := by
  rcases hcli : config.cli with _ | cli
  · rw [wp_build, hcli] at h
    simp [Option.bind_eq_bind] at h
  · obtain ⟨-, hmap, hexit, hex1, hex0⟩ :=
      wp_build_some status config ty il cli out hcli h
    constructor
    · intro hne
      have hfe : config.crates.filter (linkEligible cli ty) ≠ [] := by
        intro hc
        exact hne ((registryFrom_nil_iff cli ty config.crates []).mpr ⟨rfl, hc⟩ ▸ hmap)
      obtain ⟨i, hi⟩ := List.exists_mem_of_ne_nil _ hfe
      have hie : linkEligible cli ty i = true := List.of_mem_filter hi
      have himem : i ∈ config.crates := List.mem_of_mem_filter hi
      have hnpm : cli = "npm" := by
        have := hie
        simp only [linkEligible, linkFlag, Bool.and_eq_true, decide_eq_true_eq] at this
        exact this.2.1
      have hanyE : config.crates.any (linkEligible cli ty) = true :=
        List.any_eq_true.mpr ⟨i, himem, hie⟩
      have hanyA : config.crates.any (actionable ty) = true :=
        List.any_eq_true.mpr ⟨i, himem, by
          have := hie
          simp only [linkEligible, Bool.and_eq_true] at this
          exact this.1⟩
      have hext : out.exited = false := by rw [hexit, hanyA]; rfl
      have hev := hex0 hext
      rw [if_pos ⟨hnpm, hanyE⟩] at hev
      rw [hev, linkArgs_append, linkArgs_tracesOf, hmap]
      simp [linkArgs]
    · intro hnil
      have hfe : config.crates.filter (linkEligible cli ty) = [] :=
        ((registryFrom_nil_iff cli ty config.crates []).mp (hmap ▸ hnil)).2
      have hanyE : config.crates.any (linkEligible cli ty) = false := by
        cases hx : config.crates.any (linkEligible cli ty)
        · rfl
        · obtain ⟨i, hi, hp⟩ := List.any_eq_true.mp hx
          exact absurd hp (List.filter_eq_nil_iff.mp hfe i hi)
      cases hext : out.exited with
      | true =>
        rw [hex1 hext, linkArgs_append, linkArgs_tracesOf]
        simp [linkArgs]
      | false =>
        have hev := hex0 hext
        rw [if_neg (by intro hc; rw [hanyE] at hc; exact absurd hc.2 (by simp))] at hev
        rw [hev, linkArgs_tracesOf]

theorem link_invocation_batched_witness :
    (WpOutput.cratesMap ⟨[Event.regInsert "app" "./crates/app/pkg",
        Event.build "app" 0, Event.link "npm" ["./crates/app/pkg"]],
        [("app", "./crates/app/pkg")], false⟩ ≠ [] →
      linkArgs (WpOutput.events ⟨[Event.regInsert "app" "./crates/app/pkg",
        Event.build "app" 0, Event.link "npm" ["./crates/app/pkg"]],
        [("app", "./crates/app/pkg")], false⟩) =
        [(WpOutput.cratesMap ⟨[Event.regInsert "app" "./crates/app/pkg",
          Event.build "app" 0, Event.link "npm" ["./crates/app/pkg"]],
          [("app", "./crates/app/pkg")], false⟩).map Prod.snd])
    ∧ (WpOutput.cratesMap ⟨[Event.regInsert "app" "./crates/app/pkg",
        Event.build "app" 0, Event.link "npm" ["./crates/app/pkg"]],
        [("app", "./crates/app/pkg")], false⟩ = [] →
      linkArgs (WpOutput.events ⟨[Event.regInsert "app" "./crates/app/pkg",
        Event.build "app" 0, Event.link "npm" ["./crates/app/pkg"]],
        [("app", "./crates/app/pkg")], false⟩) = []) :=
  link_invocation_batched (fun _ => 0) exampleConfig "build" false _ (by decide)

/-- C5: the external build tool's exit statuses (`s₁` vs `s₂`, e.g. all
zero vs all failing) change neither which crates are attempted — every
actionable crate is attempted exactly once either way — nor the
dispatcher-level exit behavior: the process exit is status 1 exactly
when no crate is actionable, and is unchanged (status 0) by individual
build failures. -/
theorem build_failures_do_not_abort_or_change_exit
    (s1 s2 : String → Nat) (config : RswConfig) (ty : String) (il : Bool)
    (out1 out2 : WpOutput)
    (h1 : wp_build s1 config ty il = some out1)
    (h2 : wp_build s2 config ty il = some out2) :
    buildNames out1.events =
      (config.crates.filter (actionable ty)).map CrateConfig.name
    ∧ buildNames out1.events = buildNames out2.events
    ∧ out1.exited = out2.exited
    ∧ (out1.exited = true ↔ config.crates.filter (actionable ty) = []) := by
  rcases hcli : config.cli with _ | cli
  · rw [wp_build, hcli] at h1
    simp [Option.bind_eq_bind] at h1
  · obtain ⟨-, -, hexit1, -, -⟩ := wp_build_some s1 config ty il cli out1 hcli h1
    obtain ⟨-, -, hexit2, -, -⟩ := wp_build_some s2 config ty il cli out2 hcli h2
    obtain ⟨suf1, hs1, hbn1, -, -⟩ :=
      wp_build_events_shape s1 config ty il cli out1 hcli h1
    obtain ⟨suf2, hs2, hbn2, -, -⟩ :=
      wp_build_events_shape s2 config ty il cli out2 hcli h2
    have hb1 : buildNames out1.events =
        (config.crates.filter (actionable ty)).map CrateConfig.name := by
      rw [hs1, buildNames_append, hbn1, List.append_nil, buildNames_tracesOf]
    have hb2 : buildNames out2.events =
        (config.crates.filter (actionable ty)).map CrateConfig.name := by
      rw [hs2, buildNames_append, hbn2, List.append_nil, buildNames_tracesOf]
    refine ⟨hb1, by rw [hb1, hb2], by rw [hexit1, hexit2], ?_⟩
    rw [hexit1]
    constructor
    · intro hx
      have hany : config.crates.any (actionable ty) = false := by
        cases hc : config.crates.any (actionable ty)
        · rfl
        · rw [hc] at hx; exact absurd hx (by simp)
      exact List.filter_eq_nil_iff.mpr fun i hi => by
        intro hp
        have := List.any_eq_true.mpr ⟨i, hi, hp⟩
        rw [hany] at this
        exact absurd this (by simp)
    · intro hx
      have hany : config.crates.any (actionable ty) = false := by
        cases hc : config.crates.any (actionable ty)
        · rfl
        · obtain ⟨i, hi, hp⟩ := List.any_eq_true.mp hc
          exact absurd hp (List.filter_eq_nil_iff.mp hx i hi)
      rw [hany]; rfl

theorem build_failures_do_not_abort_or_change_exit_witness :
    buildNames (WpOutput.events ⟨[Event.regInsert "app" "./crates/app/pkg",
        Event.build "app" 0, Event.build "libB" 0,
        Event.link "npm" ["./crates/app/pkg"]],
        [("app", "./crates/app/pkg")], false⟩) =
      (configAB.crates.filter (actionable "build")).map CrateConfig.name
    ∧ buildNames (WpOutput.events ⟨[Event.regInsert "app" "./crates/app/pkg",
        Event.build "app" 0, Event.build "libB" 0,
        Event.link "npm" ["./crates/app/pkg"]],
        [("app", "./crates/app/pkg")], false⟩) =
      buildNames (WpOutput.events ⟨[Event.regInsert "app" "./crates/app/pkg",
        Event.build "app" 1, Event.build "libB" 1,
        Event.link "npm" ["./crates/app/pkg"]],
        [("app", "./crates/app/pkg")], false⟩)
    ∧ WpOutput.exited ⟨[Event.regInsert "app" "./crates/app/pkg",
        Event.build "app" 0, Event.build "libB" 0,
        Event.link "npm" ["./crates/app/pkg"]],
        [("app", "./crates/app/pkg")], false⟩ =
      WpOutput.exited ⟨[Event.regInsert "app" "./crates/app/pkg",
        Event.build "app" 1, Event.build "libB" 1,
        Event.link "npm" ["./crates/app/pkg"]],
        [("app", "./crates/app/pkg")], false⟩
    ∧ (WpOutput.exited ⟨[Event.regInsert "app" "./crates/app/pkg",
        Event.build "app" 0, Event.build "libB" 0,
        Event.link "npm" ["./crates/app/pkg"]],
        [("app", "./crates/app/pkg")], false⟩ = true ↔
      configAB.crates.filter (actionable "build") = []) :=
  build_failures_do_not_abort_or_change_exit (fun _ => 0) (fun _ => 1)
    configAB "build" false _ _ (by decide) (by decide)

theorem crateLines_isSome : ∀ crates : List CrateConfig,
    (crateLines crates).isSome = true ↔
      ∀ i ∈ crates, i.root.isSome = true ∧ i.out_dir.isSome = true := by
  intro crates
  induction crates with
  | nil => simp [crateLines]
  | cons i rest ih =>
    rw [crateLines]
    rcases hr : i.root with _ | r
    · simp [hr]
    · rcases ho : i.out_dir with _ | o
      · simp [hr, ho]
      · rcases hc : crateLines rest with _ | ls <;> rw [hc] at ih <;>
          simp_all [hr, ho, List.forall_mem_cons]

theorem parse_toml_isSome (config : RswConfig) :
    (parse_toml config).isSome = true ↔
      ∀ i ∈ config.crates, i.root.isSome = true ∧ i.out_dir.isSome = true := by
  rw [parse_toml, ← crateLines_isSome config.crates]
  cases crateLines config.crates <;> simp

theorem crateOk_iff (cli ty : String) (i : CrateConfig) :
    crateOk cli ty i = true ↔
      ((ty = "build" → (i.build.bind ToolOpt.run).isSome = true)
       ∧ (ty = "watch" → (i.watch.bind ToolOpt.run).isSome = true)
       ∧ (actionable ty i = true → cli = "npm" →
            i.link.isSome = true
            ∧ (i.link = some true →
                i.root.isSome = true ∧ i.out_dir.isSome = true))) := by
  by_cases hb : ty = "build"
  · subst hb
    rcases hbr : i.build.bind ToolOpt.run with _ | rb
    · simp [crateOk, runFlag, hbr]
    · cases rb
      · simp [crateOk, runFlag, actionable, hbr]
      · have ha : actionable "build" i = true := by simp [actionable, runFlag, hbr]
        simp only [crateOk, runFlag, hbr, ha]
        by_cases hn : cli = "npm"
        · rcases hl : i.link with _ | lb
          · simp [linkStepOk, hn, hl, hbr]
          · cases lb <;> simp [linkStepOk, hn, hl, hbr]
        · simp [linkStepOk, hn, hbr]
  · by_cases hw : ty = "watch"
    · subst hw
      rcases hwr : i.watch.bind ToolOpt.run with _ | rw
      · simp [crateOk, runFlag, hwr]
      · cases rw
        · simp [crateOk, runFlag, actionable, hwr]
        · have ha : actionable "watch" i = true := by simp [actionable, runFlag, hwr]
          simp only [crateOk, runFlag, hwr, ha]
          by_cases hn : cli = "npm"
          · rcases hl : i.link with _ | lb
            · simp [linkStepOk, hn, hl, hwr]
            · cases lb <;> simp [linkStepOk, hn, hl, hwr]
          · simp [linkStepOk, hn, hwr]
    · have ha : actionable ty i = false := by simp [actionable, runFlag, hb, hw]
      simp [crateOk, runFlag, hb, hw, ha]

/-- C7: in watch mode, one full dispatcher pass (`wp_build` with `rsw_type
= "watch"`) runs to completion — including its possible link step or its
process exit — before the watch engine is constructed and started: any
completed `rsw_watch` trace is a complete `wp_build` watch-mode trace,
which never contains `watchStart`, followed by `watchStart` only when
the dispatch pass did not exit the process. -/
theorem watch_initial_dispatch_precedes_watch_engine
    (status : String → Nat) (cb : Option Unit) (config : RswConfig)
    (evts : List Event)
    (h : rsw_watch status cb config = some evts) :
    ∃ lines out, parse_toml config = some (lines, config)
      ∧ wp_build status config "watch" true = some out
      ∧ Event.watchStart ∉ out.events
      ∧ ((out.exited = true ∧ evts = out.events)
        ∨ (out.exited = false ∧ evts = out.events ++ [Event.watchStart])) := by
  rcases hpt : parse_toml config with _ | p
  · rw [rsw_watch, hpt] at h
    simp [Option.bind_eq_bind] at h
  · obtain ⟨ls, cfg⟩ := p
    have hp2 : cfg = config := by
      rw [parse_toml] at hpt
      rcases hcl : crateLines config.crates with _ | ls'
      · rw [hcl] at hpt
        exact absurd hpt (by simp)
      · rw [hcl] at hpt
        simp only [Option.some.injEq, Prod.mk.injEq] at hpt
        exact hpt.2.symm
    subst hp2
    rw [rsw_watch, hpt] at h
    simp only [Option.bind_eq_bind, Option.some_bind] at h
    rcases hwp : wp_build status cfg "watch" true with _ | out
    · rw [hwp] at h
      simp at h
    · rw [hwp] at h
      simp only [Option.some_bind] at h
      have hnws : Event.watchStart ∉ out.events := by
        rcases hcli : cfg.cli with _ | cli
        · rw [wp_build, hcli] at hwp
          simp [Option.bind_eq_bind] at hwp
        · obtain ⟨suffix, hs, -, -, hws⟩ :=
            wp_build_events_shape status cfg "watch" true cli out hcli hwp
          rw [hs]
          intro hmem
          rcases List.mem_append.mp hmem with hc | hc
          · exact watchStart_not_mem_tracesOf cli "watch" status cfg.crates hc
          · exact hws hc
      cases hex : out.exited with
      | true =>
        rw [if_pos (by rw [hex])] at h
        refine ⟨ls, out, rfl, rfl, hnws, Or.inl ⟨hex, ?_⟩⟩
        simp only [Option.some.injEq] at h
        exact h.symm
      | false =>
        rw [if_neg (by rw [hex]; simp)] at h
        rcases cb with _ | u
        · simp [Option.bind_eq_bind] at h
        · simp only [Option.bind_eq_bind, Option.some_bind, Option.some.injEq] at h
          exact ⟨ls, out, rfl, rfl, hnws, Or.inr ⟨hex, h.symm⟩⟩

theorem watch_initial_dispatch_precedes_watch_engine_witness :
    ∃ lines out, parse_toml watchConfig = some (lines, watchConfig)
      ∧ wp_build (fun _ => 0) watchConfig "watch" true = some out
      ∧ Event.watchStart ∉ out.events
      ∧ ((out.exited = true
          ∧ [Event.regInsert "app" "./crates/app/pkg", Event.build "app" 0,
             Event.link "npm" ["./crates/app/pkg"], Event.watchStart] = out.events)
        ∨ (out.exited = false
          ∧ [Event.regInsert "app" "./crates/app/pkg", Event.build "app" 0,
             Event.link "npm" ["./crates/app/pkg"], Event.watchStart] =
            out.events ++ [Event.watchStart])) :=
  watch_initial_dispatch_precedes_watch_engine (fun _ => 0) (some ()) watchConfig
    _ (by decide)

/-- C8 counterexample: the crate `idle` is not actionable in any mode
(`build.run = false`, `watch.run = false`), yet the absence of its
`root`/`out_dir` makes `parse_toml` panic (`None`): `root` and
`out_dir` are unwrapped for *every* crate, not only for actionable
ones, so their absence on a never-actionable crate *is* an error. -/
theorem parse_toml_requires_root_for_inactive_crates :
    parse_toml idleConfig = none
    ∧ actionable "build" idleCrate = false
    ∧ actionable "watch" idleCrate = false
    ∧ idleCrate.root = none := by
  refine ⟨by decide, by decide, by decide, by decide⟩

/-- C8 amended: `root` and `out_dir` are required for **every** crate in
the list, actionable or not — `parse_toml` succeeds exactly when every
crate has both present, and when one is absent the error surfaces in
`parse_toml`, i.e. before any dispatch (`rsw_build`/`rsw_watch` never
reach `wp_build`). -/
theorem parse_toml_root_out_required_for_every_crate
    (status : String → Nat) (cb : Option Unit) (config : RswConfig) :
    ((parse_toml config).isSome = true ↔
      ∀ i ∈ config.crates, i.root.isSome = true ∧ i.out_dir.isSome = true)
    ∧ (parse_toml config = none →
        rsw_build status config = none ∧ rsw_watch status cb config = none) := by
  refine ⟨parse_toml_isSome config, fun hn => ⟨?_, ?_⟩⟩
  · rw [rsw_build, hn]
    rfl
  · rw [rsw_watch, hn]
    rfl

/-- C9: the link registry and the batched link invocation are functions
of the configuration and mode alone — swapping the external build
tool's exit-status oracle (`s₁` for `s₂`) leaves both unchanged — and
every link-eligible crate's registry insertion occurs in the trace
strictly before that crate's build invocation, so a crate whose build
fails is registered and linked all the same. -/
theorem registry_independent_of_build_status
    (s1 s2 : String → Nat) (config : RswConfig) (ty : String) (il : Bool)
    (out1 : WpOutput)
    (h1 : wp_build s1 config ty il = some out1) :
    ((wp_build s2 config ty il).map fun o => (o.cratesMap, linkArgs o.events))
      = some (out1.cratesMap, linkArgs out1.events)
    ∧ ∀ i ∈ config.crates, linkEligible (config.cli.getD "") ty i = true →
        insertBeforeBuild out1.events i.name (cratePath i) := by
  rcases hcli : config.cli with _ | cli
  · rw [wp_build, hcli] at h1
    simp [Option.bind_eq_bind] at h1
  · have hsome2 : (wp_build s2 config ty il).isSome = true := by
      rw [wp_build_isSome s2 config ty il, ← wp_build_isSome s1 config ty il, h1]
      rfl
    rcases hwp2 : wp_build s2 config ty il with _ | out2
    · rw [hwp2] at hsome2
      exact absurd hsome2 (by simp)
    · obtain ⟨-, hmap1, hexit1, hx11, hx01⟩ :=
        wp_build_some s1 config ty il cli out1 hcli h1
      obtain ⟨-, hmap2, hexit2, hx12, hx02⟩ :=
        wp_build_some s2 config ty il cli out2 hcli hwp2
      have hmap : out2.cratesMap = out1.cratesMap := by rw [hmap1, hmap2]
      have hexit : out2.exited = out1.exited := by rw [hexit1, hexit2]
      have hargs : linkArgs out2.events = linkArgs out1.events := by
        cases hex : out1.exited with
        | true =>
          rw [hx11 hex, hx12 (hexit.trans hex), linkArgs_append, linkArgs_append,
            linkArgs_tracesOf, linkArgs_tracesOf]
        | false =>
          have hev1 := hx01 hex
          have hev2 := hx02 (hexit.trans hex)
          by_cases hc : cli = "npm" ∧ config.crates.any (linkEligible cli ty) = true
          · rw [if_pos hc] at hev1 hev2
            rw [hev1, hev2, linkArgs_append, linkArgs_append,
              linkArgs_tracesOf, linkArgs_tracesOf]
          · rw [if_neg hc] at hev1 hev2
            rw [hev1, hev2, linkArgs_tracesOf, linkArgs_tracesOf]
      refine ⟨by simp only [Option.map_some']; rw [hmap, hargs], fun i hi he => ?_⟩
      simp only [Option.getD_some] at he
      obtain ⟨suffix, hs, -, -, -⟩ :=
        wp_build_events_shape s1 config ty il cli out1 hcli h1
      obtain ⟨pre, post, hdec⟩ :=
        tracesOf_eligible_decomp cli ty s1 i config.crates hi he
      refine ⟨pre, [], post ++ suffix, s1 i.name, ?_⟩
      rw [hs, hdec]
      simp

theorem registry_independent_of_build_status_witness :
    ((wp_build (fun _ => 1) exampleConfig "build" false).map
        fun o => (o.cratesMap, linkArgs o.events))
      = some (WpOutput.cratesMap ⟨[Event.regInsert "app" "./crates/app/pkg",
          Event.build "app" 0, Event.link "npm" ["./crates/app/pkg"]],
          [("app", "./crates/app/pkg")], false⟩,
        linkArgs (WpOutput.events ⟨[Event.regInsert "app" "./crates/app/pkg",
          Event.build "app" 0, Event.link "npm" ["./crates/app/pkg"]],
          [("app", "./crates/app/pkg")], false⟩))
    ∧ ∀ i ∈ exampleConfig.crates,
        linkEligible (exampleConfig.cli.getD "") "build" i = true →
        insertBeforeBuild (WpOutput.events ⟨[Event.regInsert "app" "./crates/app/pkg",
          Event.build "app" 0, Event.link "npm" ["./crates/app/pkg"]],
          [("app", "./crates/app/pkg")], false⟩) i.name (cratePath i) :=
  registry_independent_of_build_status (fun _ => 0) (fun _ => 1)
    exampleConfig "build" false _ (by decide)

/-- C10 counterexample: with `cli = "npm"`, a crate that is actionable
for `build` but has `link = some false` and neither `root` nor
`out_dir` does **not** make `wp_build` panic — `root`/`out_dir` are
only unwrapped for crates whose `link` flag is true, so the claimed
precondition ("every actionable crate has root and out_dir", "applies
to every crate in the list") is not necessary for panic freedom. -/
theorem wp_build_no_panic_without_root_on_nonlink_crate :
    (wp_build (fun _ => 0) noRootConfig "build" false).isSome = true
    ∧ actionable "build" noRootCrate = true
    ∧ noRootConfig.cli = some "npm"
    ∧ noRootCrate.root = none
    ∧ noRootCrate.out_dir = none := by
  refine ⟨by decide, by decide, by decide, by decide, by decide⟩

/-- C10 amended: `wp_build` is panic-free exactly when `config.cli` is
present; every crate of the list has `build` and `build.run` present in
`build` mode (respectively `watch`/`watch.run` in `watch` mode); every
*actionable* crate has `link` present when `cli = "npm"`; and every
actionable crate with `link = true` additionally has `root` and
`out_dir` present when `cli = "npm"`.  The `build`/`watch` presence
requirement applies to every crate in the given mode; the
`link`/`root`/`out_dir` requirements apply only to actionable
(respectively actionable linking) crates. -/
theorem wp_build_panic_free_iff (status : String → Nat) (config : RswConfig)
    (ty : String) (il : Bool) :
    (wp_build status config ty il).isSome = true ↔
      (config.cli.isSome = true
       ∧ ∀ i ∈ config.crates,
          (ty = "build" → (i.build.bind ToolOpt.run).isSome = true)
          ∧ (ty = "watch" → (i.watch.bind ToolOpt.run).isSome = true)
          ∧ (actionable ty i = true → config.cli = some "npm" →
              i.link.isSome = true
              ∧ (i.link = some true →
                  i.root.isSome = true ∧ i.out_dir.isSome = true))) := by
  rw [wp_build_isSome]
  rcases hcli : config.cli with _ | cli
  · simp [wpOk, hcli]
  · simp only [wpOk, hcli, Option.isSome_some, true_and, Option.some.injEq]
    rw [List.all_eq_true]
    constructor
    · intro hall i hi
      exact (crateOk_iff cli ty i).mp (hall i hi)
    · intro hall i hi
      exact (crateOk_iff cli ty i).mpr (hall i hi)

theorem parse_toml_root_out_required_for_every_crate_witness :
    (((parse_toml idleConfig).isSome = true ↔
      ∀ i ∈ idleConfig.crates, i.root.isSome = true ∧ i.out_dir.isSome = true)
    ∧ (parse_toml idleConfig = none →
        rsw_build (fun _ => 0) idleConfig = none
        ∧ rsw_watch (fun _ => 0) (some ()) idleConfig = none)) :=
  parse_toml_root_out_required_for_every_crate (fun _ => 0) (some ()) idleConfig

theorem wp_build_panic_free_iff_witness :
    ((wp_build (fun _ => 0) noRootConfig "build" false).isSome = true ↔
      (noRootConfig.cli.isSome = true
       ∧ ∀ i ∈ noRootConfig.crates,
          ("build" = "build" → (i.build.bind ToolOpt.run).isSome = true)
          ∧ ("build" = "watch" → (i.watch.bind ToolOpt.run).isSome = true)
          ∧ (actionable "build" i = true → noRootConfig.cli = some "npm" →
              i.link.isSome = true
              ∧ (i.link = some true →
                  i.root.isSome = true ∧ i.out_dir.isSome = true)))) :=
  wp_build_panic_free_iff (fun _ => 0) noRootConfig "build" false

end Rsw
